import Mathlib

/-!
Shallow embedding of the SpyMap lead-collection pipeline
(src/maps_scraper.py and the scraping call site in src/main.py).

Modelling conventions:
* JSON values that the code passes to float() are modelled by PyVal
  (a JSON number, a JSON string, or a value such as null on which
  Python float() raises).
* The network is an oracle: a Provider record maps a keyword to the
  sequence of search pages the successive fetches would return, a
  place_id to its details response, and a website URL to the result of
  scrape_site_emails.  Sequencing side effects (detail fetches, list
  appends, the two sleeps) are recorded in an event trace.
* Dict .get with a default is modelled by Option.getD; Python string
  truthiness (non-emptiness) by comparison with the empty string.
-/

/-- A JSON-ish value in a position the code may feed to Python float().
float() succeeds on numbers and on numeric strings and raises on null
(and other non-numeric values, which null also stands for). -/
inductive PyVal where
  | num (q : ℚ)
  | str (s : String)
  | null
  deriving DecidableEq, Repr

/-- Value of a run of decimal digits. -/
def digitsVal (l : List Char) : ℕ :=
  l.foldl (fun a c => a * 10 + (c.toNat - 48)) 0

/-- The whitespace stripping float(string) performs before parsing. -/
def trimChars (l : List Char) : List Char :=
  ((l.dropWhile Char.isWhitespace).reverse.dropWhile Char.isWhitespace).reverse

/-- Python float(string) on the plain decimal fragment actually exercised
by the program (the rating filter strings and JSON-sourced ratings):
optional surrounding whitespace, an optional sign, digits with an
optional fractional part. -/
def pyFloat (s : String) : Option ℚ :=
  let cs := trimChars s.data
  let signAndRest : Bool × List Char :=
    match cs with
    | '-' :: r => (true, r)
    | '+' :: r => (false, r)
    | _ => (false, cs)
  let ip := signAndRest.2.takeWhile Char.isDigit
  let rest := signAndRest.2.dropWhile Char.isDigit
  match rest with
  | [] =>
      if ip.isEmpty then none
      else some (if signAndRest.1 then -(digitsVal ip : ℚ) else (digitsVal ip : ℚ))
  | '.' :: r =>
      let fp := r.takeWhile Char.isDigit
      let tl := r.dropWhile Char.isDigit
      if tl.isEmpty && !(ip.isEmpty && fp.isEmpty) then
        let v : ℚ := (digitsVal (ip ++ fp) : ℚ) / 10 ^ fp.length
        some (if signAndRest.1 then -v else v)
      else none
  | _ => none

/-- Python float() applied to a PyVal. -/
def floatOfVal : PyVal → Option ℚ
  | .num q => some q
  | .str s => pyFloat s
  | .null => none

/-- The filters dict.  A key missing from the Python dict is represented
by the string "no_filter", which is the default the code supplies via
filters.get(key, "no_filter"). -/
structure Filters where
  website : String
  email : String
  rating : String
  deriving DecidableEq, Repr

/-- The all-pass specification (an empty filters dict). -/
def noFilterSpec : Filters := ⟨"no_filter", "no_filter", "no_filter"⟩

/-- The rating-filter block of collect_leads: the try block computes
float(rating_filter) and float(rating); on success the "5" branch
demands equality with 5.0 and the other branches demand at least the
threshold; any float() failure lands in the except handler, which
rejects because the filter is active. -/
def ratingFilterPasses (rf : String) (rating : PyVal) : Bool :=
  if rf = "no_filter" then true
  else
    match pyFloat rf, floatOfVal rating with
    | some minR, some pr =>
        if rf = "5" then decide (pr = 5) else decide (¬ pr < minR)
    | _, _ => false

/-- The chain of filter checks guarding leads.append: each conjunct is
one continue statement of the source. -/
def passesFilters (F : Filters) (website email : String) (rating : PyVal) : Bool :=
  (!(F.website == "with" && website == "")) &&
  (!(F.website == "without" && !(website == ""))) &&
  (!(F.email == "with" && email == "")) &&
  (!(F.email == "without" && !(email == ""))) &&
  ratingFilterPasses F.rating rating

/-- One entry of a search page's results array; only place_id is read.
place.get("place_id") may be absent, hence the Option. -/
structure Place where
  place_id : Option String
  deriving DecidableEq, Repr

/-- The fields of a details response's result object; each is read with
.get and a default.  The rating is kept as the raw JSON value because
the code passes it to float(). -/
structure DetRes where
  name : Option String
  formatted_address : Option String
  formatted_phone_number : Option String
  website : Option String
  rating : Option PyVal
  deriving DecidableEq, Repr

/-- A details response; result is only read when status is "OK". -/
structure DetailResp where
  status : String
  result : DetRes
  deriving DecidableEq, Repr

/-- A nearby-search page response. -/
structure SearchPage where
  status : String
  error_message : Option String
  results : List Place
  next_page_token : Option String
  deriving DecidableEq, Repr

/-- A lead record as appended to the leads list.  The source stores
str(rating); the underlying value is kept since no claim depends on the
decimal rendering. -/
structure Lead where
  name : String
  address : String
  phone : String
  website : String
  email : String
  rating : PyVal
  deriving DecidableEq, Repr

/-- The network oracle for one collect_leads run: pages kw is the
sequence of responses that the first-page fetch and the successive
page-token fetches for that keyword return; details pid is the details
response for a place_id; emails url is what scrape_site_emails returns
for a website. -/
structure Provider where
  pages : String → List SearchPage
  details : Option String → DetailResp
  emails : String → String

/-- Events of a run, in program order: a search-page fetch, a
per-place details fetch, an append to the leads list, the post-append
jitter sleep (time.sleep(0.1 + random.random() * 0.1)) and the
pre-next-page pacing sleep (time.sleep(2.2)). -/
inductive Ev where
  | searchFetch (page : SearchPage)
  | detailFetch (pid : Option String)
  | append (pid : Option String) (lead : Lead)
  | jitterSleep
  | pageSleep
  deriving DecidableEq, Repr

/-- The error raised on a non-OK, non-ZERO_RESULTS search status:
ValueError carrying the provider status and the error message obtained
by data.get("error_message", default). -/
structure PErr where
  status : String
  message : String
  deriving DecidableEq, Repr

/-- Default message when the response has no error_message field. -/
def defaultErrMsg : String := "An unknown error occurred with the Google Maps API."

/-- The error built from a bad page. -/
def provErr (p : SearchPage) : PErr :=
  ⟨p.status, p.error_message.getD defaultErrMsg⟩

/-- status not in ("OK", "ZERO_RESULTS"). -/
def badStatus (s : String) : Bool :=
  !(s == "OK") && !(s == "ZERO_RESULTS")

/-- The body of the for-place loop for one result: dedup check and
seen-update, details fetch, enrichment, filters, append and jitter.
Returns the new seen list, the leads appended (empty or a singleton)
and the events emitted. -/
def processPlace (prov : Provider) (F : Filters) (seen : List (Option String))
    (pl : Place) : List (Option String) × List Lead × List Ev :=
  if pl.place_id ∈ seen then (seen, [], [])
  else
    let seen' := pl.place_id :: seen
    let det := prov.details pl.place_id
    if det.status = "OK" then
      let website := det.result.website.getD ""
      let email := if website = "" then "" else prov.emails website
      let rating := det.result.rating.getD (.num 0)
      if passesFilters F website email rating then
        let ld : Lead :=
          ⟨det.result.name.getD "", det.result.formatted_address.getD "",
           det.result.formatted_phone_number.getD "", website, email, rating⟩
        (seen', [ld], [.detailFetch pl.place_id, .append pl.place_id ld, .jitterSleep])
      else (seen', [], [.detailFetch pl.place_id])
    else (seen', [], [.detailFetch pl.place_id])

/-- The for-place loop over one page's results array. -/
def processResults (prov : Provider) (F : Filters) :
    List Place → List (Option String) → List (Option String) × List Lead × List Ev
  | [], seen => (seen, [], [])
  | pl :: ps, seen =>
      let a := processPlace prov F seen pl
      let b := processResults prov F ps a.1
      (b.1, a.2.1 ++ b.2.1, a.2.2 ++ b.2.2)

/-- The while-page loop for one keyword, run over the sequence of pages
the successive fetches return.  A bad status raises; ZERO_RESULTS
breaks to the next keyword; otherwise the page's results are processed
and, exactly when a next_page_token is present, the pacing sleep
happens and the next page is fetched. -/
def runPages (prov : Provider) (F : Filters) :
    List SearchPage → List (Option String) →
    List Ev × Except PErr (List (Option String) × List Lead)
  | [], seen => ([], .ok (seen, []))
  | p :: rest, seen =>
      if badStatus p.status then ([.searchFetch p], .error (provErr p))
      else if p.status = "ZERO_RESULTS" then ([.searchFetch p], .ok (seen, []))
      else
        let a := processResults prov F p.results seen
        match p.next_page_token with
        | none => (.searchFetch p :: a.2.2, .ok (a.1, a.2.1))
        | some _ =>
            let b := runPages prov F rest a.1
            (.searchFetch p :: a.2.2 ++ .pageSleep :: b.1,
             match b.2 with
             | .error e => .error e
             | .ok s2 => .ok (s2.1, a.2.1 ++ s2.2))

/-- The for-keyword loop; the seen set and the leads list thread
through all keywords. -/
def collectKws (prov : Provider) (F : Filters) :
    List String → List (Option String) →
    List Ev × Except PErr (List (Option String) × List Lead)
  | [], seen => ([], .ok (seen, []))
  | kw :: kws, seen =>
      let a := runPages prov F (prov.pages kw) seen
      match a.2 with
      | .error e => (a.1, .error e)
      | .ok s1 =>
          let b := collectKws prov F kws s1.1
          (a.1 ++ b.1,
           match b.2 with
           | .error e => .error e
           | .ok s2 => .ok (s2.1, s1.2 ++ s2.2))

/-- collect_leads: the whole run, returning the event trace and either
the raised error or the leads list. -/
def collect_leads (prov : Provider) (kws : List String) (F : Filters) :
    List Ev × Except PErr (List Lead) :=
  let a := collectKws prov F kws []
  (a.1,
   match a.2 with
   | .error e => .error e
   | .ok s => .ok s.2)

/-- place_ids of the details fetches in a trace. -/
def detailPids (ev : List Ev) : List (Option String) :=
  ev.filterMap fun e => match e with | .detailFetch pid => some pid | _ => none

/-- place_ids of the appends in a trace. -/
def appendPids (ev : List Ev) : List (Option String) :=
  ev.filterMap fun e => match e with | .append pid _ => some pid | _ => none

/-- leads of the appends in a trace. -/
def appendLeads (ev : List Ev) : List Lead :=
  ev.filterMap fun e => match e with | .append _ ld => some ld | _ => none

/-- the search pages fetched in a trace. -/
def fetchedPages (ev : List Ev) : List SearchPage :=
  ev.filterMap fun e => match e with | .searchFetch p => some p | _ => none

/-- number of jitter sleeps in a trace. -/
def countJitter (ev : List Ev) : ℕ :=
  ev.countP fun e => match e with | .jitterSleep => true | _ => false

/-- number of appends in a trace. -/
def countAppend (ev : List Ev) : ℕ :=
  ev.countP fun e => match e with | .append _ _ => true | _ => false

/-- number of details fetches in a trace. -/
def countDetail (ev : List Ev) : ℕ :=
  ev.countP fun e => match e with | .detailFetch _ => true | _ => false

/-- true when every append event is immediately followed by a jitter
sleep. -/
def appendsFollowedByJitter : List Ev → Bool
  | [] => true
  | .append _ _ :: .jitterSleep :: rest => appendsFollowedByJitter rest
  | .append _ _ :: _ => false
  | _ :: rest => appendsFollowedByJitter rest

/-!
Shallow embedding of scrape_site_emails (src/maps_scraper.py lines
54-66).  A fetched page is modelled after what the code reads from it:
the text content BeautifulSoup renders via soup.get_text(" ") and the
href values of its anchors.  requests.get never raises on an HTTP error
status here (the code calls no raise_for_status), so a response is a
status code plus a page; a transport exception is the other outcome and
is swallowed by the except handler.
-/

/-- What the code reads from a fetched page: soup.get_text(" ") and
the href attribute of every anchor (a.get("href", "")). -/
structure Page where
  text : String
  hrefs : List String
  deriving DecidableEq, Repr

/-- Outcome of requests.get + BeautifulSoup for one target URL. -/
inductive FetchOutcome where
  | ok (statusCode : ℕ) (page : Page)
  | exn
  deriving DecidableEq, Repr

/-- The web oracle for scrape_site_emails. -/
structure Web where
  fetch : String → FetchOutcome

/-- blob = soup.get_text(" ") + " " + " ".join(hrefs). -/
def pageBlob (p : Page) : String :=
  p.text ++ " " ++ String.intercalate " " p.hrefs

/-- Character class of the regex local part, [A-Z0-9._%+-] with re.I
(ASCII fragment). -/
def isLocalChar (c : Char) : Bool :=
  c.isAlphanum || c == '.' || c == '_' || c == '%' || c == '+' || c == '-'

/-- Character class of the regex domain part, [A-Z0-9.-] with re.I. -/
def isDomChar (c : Char) : Bool :=
  c.isAlphanum || c == '.' || c == '-'

/-- Character class of the regex top-level-domain part, [A-Z] with
re.I. -/
def isTldChar (c : Char) : Bool :=
  c.isAlpha

/-- Backtracking of the greedy domain run against a literal dot and a
greedy run of at least two letters: given the maximal [A-Z0-9.-] run z
after the at sign, find the rightmost dot of z followed by at least two
letters; return the part of z before that dot, the maximal letter run
after it, and the rest of z. -/
def emailSplit : List Char → Option (List Char × List Char × List Char)
  | [] => none
  | c :: rest =>
      match emailSplit rest with
      | some s => some (c :: s.1, s.2.1, s.2.2)
      | none =>
          if c = '.' then
            let u := rest.takeWhile isTldChar
            if 2 ≤ u.length then some ([], u, rest.dropWhile isTldChar)
            else none
          else none

/-- Matching EMAIL_PAT at the head of the input: a nonempty local-part
run, a literal at sign, then the domain backtracking.  The local run
needs no backtracking because the at sign is not a local character.
Returns the matched token and the remaining input. -/
def matchEmailAt (l : List Char) : Option (List Char × List Char) :=
  let lp := l.takeWhile isLocalChar
  if lp.isEmpty then none
  else
    match l.dropWhile isLocalChar with
    | '@' :: rest2 =>
        let z := rest2.takeWhile isDomChar
        match emailSplit z with
        | some s =>
            if s.1.isEmpty then none
            else some (lp ++ '@' :: (s.1 ++ '.' :: s.2.1),
                       s.2.2 ++ rest2.dropWhile isDomChar)
        | none => none
    | _ => none

/-- Left-to-right non-overlapping scan of re.findall: try a match at
each position; on success continue after the match, else advance one
character.  Fuel is the input length; every step consumes at least one
character. -/
def scanEmails : ℕ → List Char → List String
  | 0, _ => []
  | _, [] => []
  | Nat.succ fuel, c :: rest =>
      match matchEmailAt (c :: rest) with
      | some s => String.mk s.1 :: scanEmails fuel s.2
      | none => scanEmails fuel rest

/-- EMAIL_PAT.findall on a string. -/
def emailFindall (s : String) : List String :=
  scanEmails s.length s.data

/-- urllib.parse.urljoin(url, "sl" ++ "ash contact") for the absolute
URLs the details provider returns: keep scheme and authority, replace
the path.  A base without a scheme marker resolves to the bare path. -/
def splitSchemeMark : List Char → Option (List Char × List Char)
  | [] => none
  | ':' :: '/' :: '/' :: rest => some ([], rest)
  | c :: rest =>
      match splitSchemeMark rest with
      | some s => some (c :: s.1, s.2)
      | none => none

/-- The second candidate target of scrape_site_emails. -/
def urljoinContact (url : String) : String :=
  match splitSchemeMark url.data with
  | none => "/contact"
  | some s =>
      String.mk (s.1 ++ ':' :: '/' :: '/' ::
        s.2.takeWhile (fun c => !(c == '/') && !(c == '?') && !(c == '#'))) ++
        "/contact"

/-- Python set.add folded over new tokens: keep existing elements,
append an element only when not yet present. -/
def addUnique (l : List String) (s : String) : List String :=
  if s ∈ l then l else l ++ [s]

/-- found.update(tokens). -/
def unionTokens (l : List String) (new : List String) : List String :=
  new.foldl addUnique l

/-- Tokens one loop iteration contributes for a target: empty when the
fetch raises (the except handler passes), the findall of the page blob
otherwise — the HTTP status code is never consulted. -/
def attemptTokens (web : Web) (target : String) : List String :=
  match web.fetch target with
  | .exn => []
  | .ok _ pg => emailFindall (pageBlob pg)

/-- Python str.lower on the ASCII strings the email pattern matches:
lowercase every character. -/
def lowerStr (s : String) : String :=
  String.mk (s.data.map Char.toLower)

/-- sorted(...) on strings: Python compares strings by code points,
modelled by the lexicographic order on their character lists. -/
def sortStrs (l : List String) : List String :=
  @List.insertionSort String (fun a b => a.data ≤ b.data)
    (fun _ _ => inferInstance) l

/-- The final rendering: ";".join(sorted(e.lower() for e in found)). -/
def renderEmails (found : List String) : String :=
  String.intercalate ";" (sortStrs (found.map lowerStr))

/-- scrape_site_emails: attempt the URL itself, then — only when the
found set is still empty — the contact path on the same origin; render
the result. -/
def scrape_site_emails (web : Web) (url : String) : String :=
  let f1 := unionTokens [] (attemptTokens web url)
  let found :=
    if f1.isEmpty then unionTokens f1 (attemptTokens web (urljoinContact url))
    else f1
  renderEmails found

/-!
Shallow embedding of geocode_location (src/maps_scraper.py lines 26-34)
and its call site in src/main.py line 457.  Coordinate values are
modelled by their decimal rendering, since the claims never inspect the
numbers themselves.
-/

/-- results[0].geometry.location of a geocode response. -/
structure GeoLoc where
  lat : String
  lng : String
  deriving DecidableEq, Repr

/-- A geocode response. -/
structure GeoResp where
  status : String
  results : List GeoLoc
  deriving DecidableEq, Repr

/-- The geocode provider oracle. -/
structure GeoEnv where
  geocode : String → GeoResp

/-- geocode_location: raise ValueError("Geocode failed: " + status) when
the status is not "OK" or the results list is empty, else render
results[0]'s coordinates. -/
def geocode_location (env : GeoEnv) (address : String) : Except String String :=
  match (env.geocode address).results with
  | [] => .error ("Geocode failed: " ++ (env.geocode address).status)
  | l :: _ =>
      if (env.geocode address).status = "OK" then .ok (l.lat ++ "," ++ l.lng)
      else .error ("Geocode failed: " ++ (env.geocode address).status)

/-- The call site in main.py: geocode only when the location contains
no comma, else pass the location through.  The second component counts
the geocode requests issued. -/
def resolveCenter (env : GeoEnv) (location : String) :
    Except String String × ℕ :=
  if ',' ∈ location.data then (.ok location, 0)
  else (geocode_location env location, 1)

/-!
Invariant predicates used by the inductions over the pipeline, and
concrete fixtures used by witnesses and counterexamples.
-/

/-- Invariant of the for-place loop: the seen list only grows, the
details fetches of the emitted trace are pairwise distinct, new, and
recorded in the resulting seen list, appends are a sub-multiset of the
details fetches, the appended leads are exactly the returned leads and
each passed the filters, and every append is paired with one jitter
sleep, immediately. -/
def ResultsOk (F : Filters) (seen : List (Option String))
    (r : List (Option String) × List Lead × List Ev) : Prop :=
  (∀ x ∈ seen, x ∈ r.1) ∧
  (detailPids r.2.2).Nodup ∧
  (∀ pid ∈ detailPids r.2.2, pid ∈ r.1 ∧ pid ∉ seen) ∧
  (appendPids r.2.2).Sublist (detailPids r.2.2) ∧
  appendLeads r.2.2 = r.2.1 ∧
  (∀ ld ∈ r.2.1, passesFilters F ld.website ld.email ld.rating = true) ∧
  countJitter r.2.2 = countAppend r.2.2 ∧
  appendsFollowedByJitter r.2.2 = true

/-- The same invariant for the page and keyword loops, whose leads and
seen list live under the Except. -/
def RunOk (F : Filters) (seen : List (Option String))
    (r : List Ev × Except PErr (List (Option String) × List Lead)) : Prop :=
  (detailPids r.1).Nodup ∧
  (∀ pid ∈ detailPids r.1, pid ∉ seen) ∧
  (appendPids r.1).Sublist (detailPids r.1) ∧
  countJitter r.1 = countAppend r.1 ∧
  appendsFollowedByJitter r.1 = true ∧
  (∀ s lds, r.2 = .ok (s, lds) →
    (∀ x ∈ seen, x ∈ s) ∧ (∀ pid ∈ detailPids r.1, pid ∈ s) ∧
    appendLeads r.1 = lds ∧ countAppend r.1 = lds.length ∧
    (∀ ld ∈ lds, passesFilters F ld.website ld.email ld.rating = true))

/-- Refinement relation between a run under some filters and the run
under the all-pass filters on the same responses: identical errors,
identical seen lists, and a leads list that is a sub-sequence. -/
def ExceptRel :
    Except PErr (List (Option String) × List Lead) →
    Except PErr (List (Option String) × List Lead) → Prop
  | .error e, .error f => e = f
  | .ok a, .ok b => a.1 = b.1 ∧ a.2.Sublist b.2
  | _, _ => False

/-- Fixture: an OK page with two results and no next-page token. -/
def pgOK2 : SearchPage := ⟨"OK", none, [⟨some "a"⟩, ⟨some "b"⟩], none⟩

/-- Fixture: a ZERO_RESULTS page. -/
def pgZR : SearchPage := ⟨"ZERO_RESULTS", none, [], none⟩

/-- Fixture: details responses; place "a" is rated 3, place "b" is
rated 5, neither has a website. -/
def det9 : Option String → DetailResp := fun pid =>
  if pid = some "a" then
    ⟨"OK", ⟨some "Cafe A", some "1 A St", some "111", none, some (.num 3)⟩⟩
  else
    ⟨"OK", ⟨some "Cafe B", some "2 B St", some "222", none, some (.num 5)⟩⟩

/-- Fixture: one keyword, one OK page, two places. -/
def p9 : Provider := ⟨fun _ => [pgOK2], det9, fun _ => ""⟩

/-- Fixture: rating filter "5", nothing else. -/
def F9 : Filters := ⟨"no_filter", "no_filter", "5"⟩

/-- The lead produced for place "a" when no filter rejects it. -/
def leadA : Lead := ⟨"Cafe A", "1 A St", "111", "", "", .num 3⟩

/-- The lead produced for place "b". -/
def leadB : Lead := ⟨"Cafe B", "2 B St", "222", "", "", .num 5⟩

/-- Fixture: a provider whose every first page is ZERO_RESULTS. -/
def pz : Provider := ⟨fun _ => [pgZR], det9, fun _ => ""⟩

/-- Fixture: a geocode provider that always reports quota exhaustion. -/
def env0 : GeoEnv := ⟨fun _ => ⟨"OVER_QUERY_LIMIT", []⟩⟩

/-- Fixture: a homepage without email tokens. -/
def rootPage : Page := ⟨"Welcome to Example Corp", ["/about", "/contact"]⟩

/-- Fixture: a contact page whose only token sits in a mailto anchor. -/
def contactPage : Page := ⟨"Reach our team", ["mailto:sales@example.com"]⟩

/-- Fixture: the site of end-to-end email scenario of the spec. -/
def demoWeb : Web :=
  ⟨fun t =>
    if t = "https://example.com" then .ok 200 rootPage
    else if t = "https://example.com/contact" then .ok 200 contactPage
    else .exn⟩

/-- Fixture: a page carrying the same address in two letter cases. -/
def c6Page : Page := ⟨"Write to A@x.co or a@x.co", []⟩

/-- Fixture: site for the dedup-after-lowercasing counterexample. -/
def c6Web : Web :=
  ⟨fun t => if t = "http://c6.example" then .ok 200 c6Page else .exn⟩

/-- Fixture: a page served with HTTP status 404 that still carries an
email token. -/
def c10Page : Page := ⟨"Contact support@err.example for help", []⟩

/-- Fixture: the 404 root page carries a token; the contact page would
carry a different one, showing the fallback is suppressed. -/
def c10Web : Web :=
  ⟨fun t =>
    if t = "http://err.example" then .ok 404 c10Page
    else .ok 200 ⟨"other@x.co", []⟩⟩

/-!
Trace projection calculation lemmas.
-/

@[simp] lemma detailPids_nil : detailPids [] = [] := rfl

@[simp] lemma detailPids_cons_search (p : SearchPage) (ev : List Ev) :
    detailPids (.searchFetch p :: ev) = detailPids ev := rfl

@[simp] lemma detailPids_cons_detail (pid : Option String) (ev : List Ev) :
    detailPids (.detailFetch pid :: ev) = pid :: detailPids ev := rfl

@[simp] lemma detailPids_cons_append (pid : Option String) (ld : Lead) (ev : List Ev) :
    detailPids (.append pid ld :: ev) = detailPids ev := rfl

@[simp] lemma detailPids_cons_jitter (ev : List Ev) :
    detailPids (.jitterSleep :: ev) = detailPids ev := rfl

@[simp] lemma detailPids_cons_pageSleep (ev : List Ev) :
    detailPids (.pageSleep :: ev) = detailPids ev := rfl

@[simp] lemma detailPids_append_list (a b : List Ev) :
    detailPids (a ++ b) = detailPids a ++ detailPids b :=
  List.filterMap_append a b _

@[simp] lemma appendPids_nil : appendPids [] = [] := rfl

@[simp] lemma appendPids_cons_search (p : SearchPage) (ev : List Ev) :
    appendPids (.searchFetch p :: ev) = appendPids ev := rfl

@[simp] lemma appendPids_cons_detail (pid : Option String) (ev : List Ev) :
    appendPids (.detailFetch pid :: ev) = appendPids ev := rfl

@[simp] lemma appendPids_cons_append (pid : Option String) (ld : Lead) (ev : List Ev) :
    appendPids (.append pid ld :: ev) = pid :: appendPids ev := rfl

@[simp] lemma appendPids_cons_jitter (ev : List Ev) :
    appendPids (.jitterSleep :: ev) = appendPids ev := rfl

@[simp] lemma appendPids_cons_pageSleep (ev : List Ev) :
    appendPids (.pageSleep :: ev) = appendPids ev := rfl

@[simp] lemma appendPids_append_list (a b : List Ev) :
    appendPids (a ++ b) = appendPids a ++ appendPids b :=
  List.filterMap_append a b _

@[simp] lemma appendLeads_nil : appendLeads [] = [] := rfl

@[simp] lemma appendLeads_cons_search (p : SearchPage) (ev : List Ev) :
    appendLeads (.searchFetch p :: ev) = appendLeads ev := rfl

@[simp] lemma appendLeads_cons_detail (pid : Option String) (ev : List Ev) :
    appendLeads (.detailFetch pid :: ev) = appendLeads ev := rfl

@[simp] lemma appendLeads_cons_append (pid : Option String) (ld : Lead) (ev : List Ev) :
    appendLeads (.append pid ld :: ev) = ld :: appendLeads ev := rfl

@[simp] lemma appendLeads_cons_jitter (ev : List Ev) :
    appendLeads (.jitterSleep :: ev) = appendLeads ev := rfl

@[simp] lemma appendLeads_cons_pageSleep (ev : List Ev) :
    appendLeads (.pageSleep :: ev) = appendLeads ev := rfl

@[simp] lemma appendLeads_append_list (a b : List Ev) :
    appendLeads (a ++ b) = appendLeads a ++ appendLeads b :=
  List.filterMap_append a b _

@[simp] lemma fetchedPages_nil : fetchedPages [] = [] := rfl

@[simp] lemma fetchedPages_cons_search (p : SearchPage) (ev : List Ev) :
    fetchedPages (.searchFetch p :: ev) = p :: fetchedPages ev := rfl

@[simp] lemma fetchedPages_cons_detail (pid : Option String) (ev : List Ev) :
    fetchedPages (.detailFetch pid :: ev) = fetchedPages ev := rfl

@[simp] lemma fetchedPages_cons_append (pid : Option String) (ld : Lead) (ev : List Ev) :
    fetchedPages (.append pid ld :: ev) = fetchedPages ev := rfl

@[simp] lemma fetchedPages_cons_jitter (ev : List Ev) :
    fetchedPages (.jitterSleep :: ev) = fetchedPages ev := rfl

@[simp] lemma fetchedPages_cons_pageSleep (ev : List Ev) :
    fetchedPages (.pageSleep :: ev) = fetchedPages ev := rfl

@[simp] lemma fetchedPages_append_list (a b : List Ev) :
    fetchedPages (a ++ b) = fetchedPages a ++ fetchedPages b :=
  List.filterMap_append a b _

@[simp] lemma countJitter_nil : countJitter [] = 0 := rfl

@[simp] lemma countJitter_cons_search (p : SearchPage) (ev : List Ev) :
    countJitter (.searchFetch p :: ev) = countJitter ev := by
  simp [countJitter, List.countP_cons]

@[simp] lemma countJitter_cons_detail (pid : Option String) (ev : List Ev) :
    countJitter (.detailFetch pid :: ev) = countJitter ev := by
  simp [countJitter, List.countP_cons]

@[simp] lemma countJitter_cons_append (pid : Option String) (ld : Lead) (ev : List Ev) :
    countJitter (.append pid ld :: ev) = countJitter ev := by
  simp [countJitter, List.countP_cons]

@[simp] lemma countJitter_cons_jitter (ev : List Ev) :
    countJitter (.jitterSleep :: ev) = countJitter ev + 1 := by
  simp [countJitter, List.countP_cons]

@[simp] lemma countJitter_cons_pageSleep (ev : List Ev) :
    countJitter (.pageSleep :: ev) = countJitter ev := by
  simp [countJitter, List.countP_cons]

@[simp] lemma countJitter_append_list (a b : List Ev) :
    countJitter (a ++ b) = countJitter a + countJitter b :=
  List.countP_append _ a b

@[simp] lemma countAppend_nil : countAppend [] = 0 := rfl

@[simp] lemma countAppend_cons_search (p : SearchPage) (ev : List Ev) :
    countAppend (.searchFetch p :: ev) = countAppend ev := by
  simp [countAppend, List.countP_cons]

@[simp] lemma countAppend_cons_detail (pid : Option String) (ev : List Ev) :
    countAppend (.detailFetch pid :: ev) = countAppend ev := by
  simp [countAppend, List.countP_cons]

@[simp] lemma countAppend_cons_append (pid : Option String) (ld : Lead) (ev : List Ev) :
    countAppend (.append pid ld :: ev) = countAppend ev + 1 := by
  simp [countAppend, List.countP_cons]

@[simp] lemma countAppend_cons_jitter (ev : List Ev) :
    countAppend (.jitterSleep :: ev) = countAppend ev := by
  simp [countAppend, List.countP_cons]

@[simp] lemma countAppend_cons_pageSleep (ev : List Ev) :
    countAppend (.pageSleep :: ev) = countAppend ev := by
  simp [countAppend, List.countP_cons]

@[simp] lemma countAppend_append_list (a b : List Ev) :
    countAppend (a ++ b) = countAppend a + countAppend b :=
  List.countP_append _ a b

@[simp] lemma afj_nil : appendsFollowedByJitter [] = true := rfl

@[simp] lemma afj_cons_search (p : SearchPage) (ev : List Ev) :
    appendsFollowedByJitter (.searchFetch p :: ev) = appendsFollowedByJitter ev := rfl

@[simp] lemma afj_cons_detail (pid : Option String) (ev : List Ev) :
    appendsFollowedByJitter (.detailFetch pid :: ev) = appendsFollowedByJitter ev := rfl

@[simp] lemma afj_cons_jitter (ev : List Ev) :
    appendsFollowedByJitter (.jitterSleep :: ev) = appendsFollowedByJitter ev := rfl

@[simp] lemma afj_cons_pageSleep (ev : List Ev) :
    appendsFollowedByJitter (.pageSleep :: ev) = appendsFollowedByJitter ev := rfl

@[simp] lemma afj_cons_block (pid : Option String) (ld : Lead) (ev : List Ev) :
    appendsFollowedByJitter (.append pid ld :: .jitterSleep :: ev) =
      appendsFollowedByJitter ev := rfl

lemma appendLeads_length (ev : List Ev) :
    (appendLeads ev).length = countAppend ev := by
  induction ev with
  | nil => rfl
  | cons e ev ih => cases e <;> simp [ih]

/-!
The concatenation and invariant lemmas of the pipeline.
-/

lemma afj_concat (a b : List Ev) (ha : appendsFollowedByJitter a = true)
    (hb : appendsFollowedByJitter b = true) :
    appendsFollowedByJitter (a ++ b) = true := by
  induction a using appendsFollowedByJitter.induct <;> simp_all [appendsFollowedByJitter]

lemma processPlace_ok (prov : Provider) (F : Filters) (seen : List (Option String))
    (pl : Place) : ResultsOk F seen (processPlace prov F seen pl) := by
  unfold ResultsOk processPlace
  by_cases h1 : pl.place_id ∈ seen
  · simp [h1]
  · by_cases h2 : (prov.details pl.place_id).status = "OK"
    · by_cases h3 : passesFilters F ((prov.details pl.place_id).result.website.getD "")
        (if ((prov.details pl.place_id).result.website.getD "") = "" then ""
         else prov.emails ((prov.details pl.place_id).result.website.getD ""))
        ((prov.details pl.place_id).result.rating.getD (.num 0)) = true
      · simp [h1, h2, h3, List.mem_cons]
        intro x hx
        exact Or.inr hx
      · simp [h1, h2, h3, List.mem_cons]
        intro x hx
        exact Or.inr hx
    · simp [h1, h2, List.mem_cons]
      intro x hx
      exact Or.inr hx

lemma resultsOk_comp (F : Filters) (seen s1 s2 : List (Option String))
    (l1 l2 : List Lead) (e1 e2 : List Ev)
    (hA : ResultsOk F seen (s1, l1, e1)) (hB : ResultsOk F s1 (s2, l2, e2)) :
    ResultsOk F seen (s2, l1 ++ l2, e1 ++ e2) := by
  obtain ⟨hA1, hA2, hA3, hA4, hA5, hA6, hA7, hA8⟩ := hA
  obtain ⟨hB1, hB2, hB3, hB4, hB5, hB6, hB7, hB8⟩ := hB
  refine ⟨?_, ?_, ?_, ?_, ?_, ?_, ?_, ?_⟩
  · exact fun x hx => hB1 x (hA1 x hx)
  · simp only [detailPids_append_list, List.nodup_append]
    exact ⟨hA2, hB2, fun pid hpA hpB => (hB3 pid hpB).2 ((hA3 pid hpA).1)⟩
  · simp only [detailPids_append_list, List.mem_append]
    rintro pid (hp | hp)
    · exact ⟨hB1 _ (hA3 pid hp).1, (hA3 pid hp).2⟩
    · exact ⟨(hB3 pid hp).1, fun hs => (hB3 pid hp).2 (hA1 _ hs)⟩
  · simpa using List.Sublist.append hA4 hB4
  · simp [hA5, hB5]
  · intro ld hld
    rcases List.mem_append.mp hld with h | h
    · exact hA6 ld h
    · exact hB6 ld h
  · simp [hA7, hB7]
  · exact afj_concat _ _ hA8 hB8

lemma processResults_ok (prov : Provider) (F : Filters) (ps : List Place) :
    ∀ seen, ResultsOk F seen (processResults prov F ps seen) := by
  induction ps with
  | nil =>
      intro seen
      refine ⟨fun x hx => hx, ?_⟩
      simp [processResults]
  | cons pl ps ih =>
      intro seen
      have hA := processPlace_ok prov F seen pl
      have hB := ih (processPlace prov F seen pl).1
      have := resultsOk_comp F seen (processPlace prov F seen pl).1
        (processResults prov F ps (processPlace prov F seen pl).1).1
        (processPlace prov F seen pl).2.1
        (processResults prov F ps (processPlace prov F seen pl).1).2.1
        (processPlace prov F seen pl).2.2
        (processResults prov F ps (processPlace prov F seen pl).1).2.2
        (by simpa using hA) (by simpa using hB)
      simpa [processResults] using this

lemma runPages_ok (prov : Provider) (F : Filters) (pgs : List SearchPage) :
    ∀ seen, RunOk F seen (runPages prov F pgs seen) := by
  induction pgs with
  | nil =>
      intro seen
      simp only [runPages]
      refine ⟨by simp, by simp, by simp, by simp, by simp, ?_⟩
      intro s lds h
      obtain ⟨h1, h2⟩ : seen = s ∧ ([] : List Lead) = lds := by
        have h' := Except.ok.inj h
        exact ⟨congrArg Prod.fst h', congrArg Prod.snd h'⟩
      subst h1; subst h2
      exact ⟨fun x hx => hx, by simp, by simp, by simp, by simp⟩
  | cons p rest ih =>
      intro seen
      unfold runPages
      by_cases hbad : badStatus p.status
      · simp [hbad, RunOk]
      · by_cases hz : p.status = "ZERO_RESULTS"
        · have hbf : badStatus "ZERO_RESULTS" = false := by decide
          simp only [hz, hbf, Bool.false_eq_true, if_false]
          refine ⟨by simp, by simp, by simp, by simp, by simp, ?_⟩
          intro s lds h
          obtain ⟨h1, h2⟩ : seen = s ∧ ([] : List Lead) = lds := by
            have h' := Except.ok.inj h
            exact ⟨congrArg Prod.fst h', congrArg Prod.snd h'⟩
          subst h1; subst h2
          exact ⟨fun x hx => hx, by simp, by simp, by simp, by simp⟩
        · obtain ⟨hA1, hA2, hA3, hA4, hA5, hA6, hA7, hA8⟩ :=
            processResults_ok prov F p.results seen
          cases ht : p.next_page_token with
          | none =>
              simp only [hbad, hz, ht, if_false, Bool.false_eq_true, ite_false]
              refine ⟨by simpa using hA2, ?_, by simpa using hA4, by simpa using hA7,
                by simpa using hA8, ?_⟩
              · simpa using fun pid hp => (hA3 pid hp).2
              · intro s lds h
                simp only [Except.ok.injEq, Prod.mk.injEq] at h
                obtain ⟨h1, h2⟩ := h
                subst h1; subst h2
                refine ⟨hA1, ?_, by simpa using hA5, ?_, hA6⟩
                · simpa using fun pid hp => (hA3 pid hp).1
                · simpa using (appendLeads_length _).symm.trans (by simp [hA5])
          | some tok =>
              obtain ⟨hB1, hB2, hB3, hB4, hB5, hB6⟩ :=
                ih (processResults prov F p.results seen).1
              simp only [hbad, hz, ht, if_false, Bool.false_eq_true, ite_false]
              refine ⟨?_, ?_, ?_, ?_, ?_, ?_⟩
              · simp only [detailPids_cons_search, detailPids_append_list,
                  detailPids_cons_pageSleep, List.nodup_append]
                exact ⟨hA2, hB1, fun pid hpA hpB => hB2 pid hpB ((hA3 pid hpA).1)⟩
              · simp only [detailPids_cons_search, detailPids_append_list,
                  detailPids_cons_pageSleep, List.mem_append]
                rintro pid (hp | hp)
                · exact (hA3 pid hp).2
                · exact fun hs => hB2 pid hp (hA1 _ hs)
              · simp only [appendPids_cons_search, appendPids_append_list,
                  appendPids_cons_pageSleep, detailPids_cons_search,
                  detailPids_append_list, detailPids_cons_pageSleep]
                exact List.Sublist.append hA4 hB3
              · simp [hA7, hB4]
              · simp only [afj_cons_search]
                exact afj_concat _ _ hA8 (by simpa using hB5)
              · intro s lds h
                cases hb2 : (runPages prov F rest (processResults prov F p.results seen).1).2 with
                | error e => rw [hb2] at h; exact absurd h (by simp)
                | ok s2 =>
                    rw [hb2] at h
                    simp only [Except.ok.injEq, Prod.mk.injEq] at h
                    obtain ⟨h1, h2⟩ := h
                    obtain ⟨hC1, hC2, hC3, hC4, hC5⟩ := hB6 s2.1 s2.2 (by rw [hb2])
                    subst h1
                    refine ⟨fun x hx => hC1 _ (hA1 x hx), ?_, ?_, ?_, ?_⟩
                    · simp only [detailPids_cons_search, detailPids_append_list,
                        detailPids_cons_pageSleep, List.mem_append]
                      rintro pid (hp | hp)
                      · exact hC1 _ (hA3 pid hp).1
                      · exact hC2 pid hp
                    · simp [hA5, hC3, ← h2]
                    · simp [← h2, ← hC4, hA7, ← appendLeads_length, hA5]
                    · intro ld hld
                      rw [← h2] at hld
                      rcases List.mem_append.mp hld with hm | hm
                      · exact hA6 ld hm
                      · exact hC5 ld hm

lemma collectKws_ok (prov : Provider) (F : Filters) (kws : List String) :
    ∀ seen, RunOk F seen (collectKws prov F kws seen) := by
  induction kws with
  | nil =>
      intro seen
      simp only [collectKws]
      refine ⟨by simp, by simp, by simp, by simp, by simp, ?_⟩
      intro s lds h
      obtain ⟨h1, h2⟩ : seen = s ∧ ([] : List Lead) = lds := by
        have h' := Except.ok.inj h
        exact ⟨congrArg Prod.fst h', congrArg Prod.snd h'⟩
      subst h1; subst h2
      exact ⟨fun x hx => hx, by simp, by simp, by simp, by simp⟩
  | cons kw kws ih =>
      intro seen
      unfold collectKws
      obtain ⟨hA1, hA2, hA3, hA4, hA5, hA6⟩ := runPages_ok prov F (prov.pages kw) seen
      cases ha2 : (runPages prov F (prov.pages kw) seen).2 with
      | error e =>
          simp only [ha2]
          exact ⟨hA1, hA2, hA3, hA4, hA5, fun s lds h => absurd h (by simp)⟩
      | ok s1 =>
          obtain ⟨hC1, hC2, hC3, hC4, hC5⟩ := hA6 s1.1 s1.2 (by rw [ha2])
          obtain ⟨hB1, hB2, hB3, hB4, hB5, hB6⟩ := ih s1.1
          simp only [ha2]
          refine ⟨?_, ?_, ?_, ?_, ?_, ?_⟩
          · simp only [detailPids_append_list, List.nodup_append]
            exact ⟨hA1, hB1, fun pid hpA hpB => hB2 pid hpB (hC2 pid hpA)⟩
          · simp only [detailPids_append_list, List.mem_append]
            rintro pid (hp | hp)
            · exact hA2 pid hp
            · exact fun hs => hB2 pid hp (hC1 _ hs)
          · simp only [appendPids_append_list, detailPids_append_list]
            exact List.Sublist.append hA3 hB3
          · simp [hA4, hB4]
          · exact afj_concat _ _ hA5 hB5
          · intro s lds h
            cases hb2 : (collectKws prov F kws s1.1).2 with
            | error e => rw [hb2] at h; exact absurd h (by simp)
            | ok s2 =>
                rw [hb2] at h
                obtain ⟨h1, h2⟩ : s2.1 = s ∧ s1.2 ++ s2.2 = lds := by
                  have h' := Except.ok.inj h
                  exact ⟨congrArg Prod.fst h', congrArg Prod.snd h'⟩
                obtain ⟨hD1, hD2, hD3, hD4, hD5⟩ := hB6 s2.1 s2.2 (by rw [hb2])
                subst h1
                refine ⟨fun x hx => hD1 _ (hC1 x hx), ?_, ?_, ?_, ?_⟩
                · simp only [detailPids_append_list, List.mem_append]
                  rintro pid (hp | hp)
                  · exact hD1 _ (hC2 pid hp)
                  · exact hD2 pid hp
                · simp [hC3, hD3, ← h2]
                · rw [← h2]
                  simp [hC4, hD4]
                · intro ld hld
                  rw [← h2] at hld
                  rcases List.mem_append.mp hld with hm | hm
                  · exact hC5 ld hm
                  · exact hD5 ld hm

lemma collect_leads_fst (prov : Provider) (kws : List String) (F : Filters) :
    (collect_leads prov kws F).1 = (collectKws prov F kws []).1 := rfl

lemma collect_leads_snd (prov : Provider) (kws : List String) (F : Filters) :
    (collect_leads prov kws F).2 =
      (match (collectKws prov F kws []).2 with
       | .error e => Except.error e
       | .ok s => Except.ok s.2 : Except PErr (List Lead)) := rfl

lemma passes_rating {F : Filters} {w e : String} {r : PyVal}
    (h : passesFilters F w e r = true) : ratingFilterPasses F.rating r = true := by
  simp only [passesFilters, Bool.and_eq_true] at h
  tauto

lemma ratingPass_analysis (rf : String) (v : PyVal)
    (h : ratingFilterPasses rf v = true) :
    (rf = "5" → floatOfVal v = some 5) ∧
    (rf ≠ "no_filter" → ∃ q t, pyFloat rf = some t ∧ floatOfVal v = some q ∧
      (rf ≠ "5" → t ≤ q)) := by
  by_cases h0 : rf = "no_filter"
  · subst h0
    exact ⟨fun h5 => absurd h5 (by decide), fun hne => absurd rfl hne⟩
  · rw [ratingFilterPasses, if_neg h0] at h
    cases hm : pyFloat rf with
    | none => rw [hm] at h; cases hv : floatOfVal v <;> rw [hv] at h <;> simp at h
    | some minR =>
        cases hv : floatOfVal v with
        | none => rw [hm, hv] at h; simp at h
        | some pr =>
            simp only [hm, hv] at h
            by_cases h5 : rf = "5"
            · rw [if_pos h5] at h
              have hpr : pr = 5 := of_decide_eq_true h
              subst hpr
              exact ⟨fun _ => rfl, fun _ => ⟨5, minR, rfl, rfl, fun hne => absurd h5 hne⟩⟩
            · rw [if_neg h5] at h
              have hle : minR ≤ pr := not_lt.mp (of_decide_eq_true h)
              exact ⟨fun h5' => absurd h5' h5, fun _ => ⟨pr, minR, rfl, rfl, fun _ => hle⟩⟩

lemma passes_noFilter (w e : String) (r : PyVal) :
    passesFilters noFilterSpec w e r = true := by
  simp [passesFilters, noFilterSpec, ratingFilterPasses]

lemma processPlace_mono (prov : Provider) (F : Filters) (seen : List (Option String))
    (pl : Place) :
    (processPlace prov F seen pl).1 = (processPlace prov noFilterSpec seen pl).1 ∧
    (processPlace prov F seen pl).2.1.Sublist
      (processPlace prov noFilterSpec seen pl).2.1 := by
  unfold processPlace
  by_cases h1 : pl.place_id ∈ seen
  · simp [h1]
  · by_cases h2 : (prov.details pl.place_id).status = "OK"
    · by_cases h3 : passesFilters F ((prov.details pl.place_id).result.website.getD "")
        (if ((prov.details pl.place_id).result.website.getD "") = "" then ""
         else prov.emails ((prov.details pl.place_id).result.website.getD ""))
        ((prov.details pl.place_id).result.rating.getD (.num 0)) = true
      · simp [h1, h2, h3, passes_noFilter]
      · simp [h1, h2, h3, passes_noFilter]
    · simp [h1, h2]

lemma processResults_mono (prov : Provider) (F : Filters) (ps : List Place) :
    ∀ seen,
      (processResults prov F ps seen).1 = (processResults prov noFilterSpec ps seen).1 ∧
      (processResults prov F ps seen).2.1.Sublist
        (processResults prov noFilterSpec ps seen).2.1 := by
  induction ps with
  | nil => intro seen; simp [processResults]
  | cons pl ps ih =>
      intro seen
      obtain ⟨e1, s1⟩ := processPlace_mono prov F seen pl
      constructor
      · simp only [processResults]
        rw [e1]
        exact (ih (processPlace prov noFilterSpec seen pl).1).1
      · simp only [processResults]
        rw [e1]
        exact List.Sublist.append s1 (ih (processPlace prov noFilterSpec seen pl).1).2


lemma runPages_mono (prov : Provider) (F : Filters) (pgs : List SearchPage) :
    ∀ seen, ExceptRel (runPages prov F pgs seen).2
      (runPages prov noFilterSpec pgs seen).2 := by
  induction pgs with
  | nil => intro seen; simp [runPages, ExceptRel]
  | cons p rest ih =>
      intro seen
      unfold runPages
      by_cases hbad : badStatus p.status
      · simp [hbad, ExceptRel]
      · by_cases hz : p.status = "ZERO_RESULTS"
        · have hbf : badStatus "ZERO_RESULTS" = false := by decide
          simp [hz, hbf, ExceptRel]
        · obtain ⟨e1, s1⟩ := processResults_mono prov F p.results seen
          cases ht : p.next_page_token with
          | none =>
              simp only [hbad, hz, ht, if_false, Bool.false_eq_true, ite_false]
              simp only [ExceptRel]
              exact ⟨e1, s1⟩
          | some tok =>
              simp only [hbad, hz, ht, if_false, Bool.false_eq_true, ite_false]
              rw [e1]
              have relb := ih (processResults prov noFilterSpec p.results seen).1
              cases hbF : (runPages prov F rest
                  (processResults prov noFilterSpec p.results seen).1).2 with
              | error e =>
                  cases hbN : (runPages prov noFilterSpec rest
                      (processResults prov noFilterSpec p.results seen).1).2 with
                  | error f =>
                      rw [hbF, hbN] at relb
                      simp only [hbF, hbN]
                      simpa [ExceptRel] using relb
                  | ok s2 =>
                      rw [hbF, hbN] at relb
                      exact absurd relb (by simp [ExceptRel])
              | ok s2 =>
                  cases hbN : (runPages prov noFilterSpec rest
                      (processResults prov noFilterSpec p.results seen).1).2 with
                  | error f =>
                      rw [hbF, hbN] at relb
                      exact absurd relb (by simp [ExceptRel])
                  | ok s2' =>
                      rw [hbF, hbN] at relb
                      simp only [hbF, hbN]
                      simp only [ExceptRel] at relb ⊢
                      exact ⟨relb.1, List.Sublist.append s1 relb.2⟩

lemma collectKws_mono (prov : Provider) (F : Filters) (kws : List String) :
    ∀ seen, ExceptRel (collectKws prov F kws seen).2
      (collectKws prov noFilterSpec kws seen).2 := by
  induction kws with
  | nil => intro seen; simp [collectKws, ExceptRel]
  | cons kw kws ih =>
      intro seen
      unfold collectKws
      have rela := runPages_mono prov F (prov.pages kw) seen
      cases haF : (runPages prov F (prov.pages kw) seen).2 with
      | error e =>
          cases haN : (runPages prov noFilterSpec (prov.pages kw) seen).2 with
          | error f =>
              rw [haF, haN] at rela
              simp only [haF, haN]
              simpa [ExceptRel] using rela
          | ok s1 =>
              rw [haF, haN] at rela
              exact absurd rela (by simp [ExceptRel])
      | ok s1 =>
          cases haN : (runPages prov noFilterSpec (prov.pages kw) seen).2 with
          | error f =>
              rw [haF, haN] at rela
              exact absurd rela (by simp [ExceptRel])
          | ok s1' =>
              rw [haF, haN] at rela
              simp only [ExceptRel] at rela
              obtain ⟨es, sl⟩ := rela
              simp only [haF, haN]
              rw [es]
              have relb := ih s1'.1
              cases hbF : (collectKws prov F kws s1'.1).2 with
              | error e =>
                  cases hbN : (collectKws prov noFilterSpec kws s1'.1).2 with
                  | error f =>
                      rw [hbF, hbN] at relb
                      simp only [hbF, hbN]
                      simpa [ExceptRel] using relb
                  | ok s2 =>
                      rw [hbF, hbN] at relb
                      exact absurd relb (by simp [ExceptRel])
              | ok s2 =>
                  cases hbN : (collectKws prov noFilterSpec kws s1'.1).2 with
                  | error f =>
                      rw [hbF, hbN] at relb
                      exact absurd relb (by simp [ExceptRel])
                  | ok s2' =>
                      rw [hbF, hbN] at relb
                      simp only [hbF, hbN]
                      simp only [ExceptRel] at relb ⊢
                      exact ⟨relb.1, List.Sublist.append sl relb.2⟩

/-- C4: for every fixed sequence of provider responses, the lead list
produced under the all-no_filter specification is a superset (by record
content, indeed a super-sequence) of the lead list produced under any
other filter specification on the same responses. -/
theorem no_filter_superset_c4 (prov : Provider) (kws : List String) (F : Filters)
    (lds0 ldsF : List Lead)
    (h0 : (collect_leads prov kws noFilterSpec).2 = .ok lds0)
    (hF : (collect_leads prov kws F).2 = .ok ldsF) :
    ldsF.Sublist lds0 ∧ ∀ x ∈ ldsF, x ∈ lds0 := by
  have rel := collectKws_mono prov F kws []
  cases hcF : (collectKws prov F kws []).2 with
  | error e => rw [collect_leads_snd, hcF] at hF; exact absurd hF (by simp)
  | ok sF =>
      cases hcN : (collectKws prov noFilterSpec kws []).2 with
      | error f => rw [collect_leads_snd, hcN] at h0; exact absurd h0 (by simp)
      | ok sN =>
          rw [collect_leads_snd, hcF] at hF
          rw [collect_leads_snd, hcN] at h0
          rw [hcF, hcN] at rel
          simp only [ExceptRel] at rel
          have hFl := Except.ok.inj hF
          have h0l := Except.ok.inj h0
          have hsub : ldsF.Sublist lds0 := by rw [← hFl, ← h0l]; exact rel.2
          exact ⟨hsub, fun x hx => hsub.subset hx⟩

lemma fetchedPages_processPlace (prov : Provider) (F : Filters)
    (seen : List (Option String)) (pl : Place) :
    fetchedPages (processPlace prov F seen pl).2.2 = [] := by
  unfold processPlace
  by_cases h1 : pl.place_id ∈ seen
  · simp [h1]
  · by_cases h2 : (prov.details pl.place_id).status = "OK"
    · by_cases h3 : passesFilters F ((prov.details pl.place_id).result.website.getD "")
        (if ((prov.details pl.place_id).result.website.getD "") = "" then ""
         else prov.emails ((prov.details pl.place_id).result.website.getD ""))
        ((prov.details pl.place_id).result.rating.getD (.num 0)) = true
      · simp [h1, h2, h3]
      · simp [h1, h2, h3]
    · simp [h1, h2]

lemma fetchedPages_processResults (prov : Provider) (F : Filters) (ps : List Place) :
    ∀ seen, fetchedPages (processResults prov F ps seen).2.2 = [] := by
  induction ps with
  | nil => intro seen; simp [processResults]
  | cons pl ps ih =>
      intro seen
      simp only [processResults, fetchedPages_append_list]
      rw [fetchedPages_processPlace, ih]
      simp

lemma runPages_err (prov : Provider) (F : Filters) (pgs : List SearchPage) :
    ∀ seen,
      ((∃ e, (runPages prov F pgs seen).2 = .error e) ↔
        ∃ p ∈ fetchedPages (runPages prov F pgs seen).1, badStatus p.status = true) ∧
      (∀ e, (runPages prov F pgs seen).2 = .error e →
        ∃ p ∈ fetchedPages (runPages prov F pgs seen).1,
          badStatus p.status = true ∧ e = provErr p) := by
  induction pgs with
  | nil => intro seen; simp [runPages]
  | cons p rest ih =>
      intro seen
      unfold runPages
      by_cases hbad : badStatus p.status
      · simp only [hbad, if_true]
        constructor
        · simp [hbad]
        · intro e he
          refine ⟨p, by simp, hbad, ?_⟩
          exact (Except.error.inj he).symm
      · by_cases hz : p.status = "ZERO_RESULTS"
        · have hbf : badStatus "ZERO_RESULTS" = false := by decide
          simp only [hz, hbf, Bool.false_eq_true, if_false]
          constructor
          · simp [hz, hbf]
          · intro e he
            exact absurd he (by simp)
        · cases ht : p.next_page_token with
          | none =>
              simp only [hbad, hz, ht, if_false, Bool.false_eq_true, ite_false]
              constructor
              · constructor
                · rintro ⟨e, he⟩
                  exact absurd he (by simp)
                · rintro ⟨q, hq, hqbad⟩
                  simp only [fetchedPages_cons_search,
                    fetchedPages_processResults, List.mem_singleton] at hq
                  rw [hq] at hqbad
                  exact absurd hqbad (by simp [hbad])
              · intro e he
                exact absurd he (by simp)
          | some tok =>
              obtain ⟨ih1, ih2⟩ := ih (processResults prov F p.results seen).1
              simp only [hbad, hz, ht, if_false, Bool.false_eq_true, ite_false]
              cases hb2 : (runPages prov F rest (processResults prov F p.results seen).1).2 with
              | error e =>
                  rw [hb2] at ih1 ih2
                  constructor
                  · constructor
                    · rintro ⟨f, hf⟩
                      obtain ⟨q, hq, hqbad⟩ := ih1.mp ⟨e, rfl⟩
                      exact ⟨q, by simp [fetchedPages_processResults, hq], hqbad⟩
                    · intro hex
                      exact ⟨e, by simp [hb2]⟩
                  · intro f hf
                    have hfe : f = e := by
                      simp only [hb2] at hf
                      exact (Except.error.inj hf).symm
                    subst hfe
                    obtain ⟨q, hq, hqbad, hqe⟩ := ih2 f rfl
                    exact ⟨q, by simp [fetchedPages_processResults, hq], hqbad, hqe⟩
              | ok s2 =>
                  rw [hb2] at ih1 ih2
                  constructor
                  · constructor
                    · rintro ⟨f, hf⟩
                      simp only [hb2] at hf
                      exact absurd hf (by simp)
                    · rintro ⟨q, hq, hqbad⟩
                      have hq' : q = p ∨ q ∈ fetchedPages (runPages prov F rest
                          (processResults prov F p.results seen).1).1 := by
                        simpa [fetchedPages_processResults] using hq
                      rcases hq' with rfl | hq'
                      · exact absurd hqbad (by simpa using hbad)
                      · obtain ⟨f, hf⟩ := ih1.mpr ⟨q, hq', hqbad⟩
                        exact absurd hf (by simp)
                  · intro f hf
                    simp only [hb2] at hf
                    exact absurd hf (by simp)

lemma collectKws_err (prov : Provider) (F : Filters) (kws : List String) :
    ∀ seen,
      ((∃ e, (collectKws prov F kws seen).2 = .error e) ↔
        ∃ p ∈ fetchedPages (collectKws prov F kws seen).1, badStatus p.status = true) ∧
      (∀ e, (collectKws prov F kws seen).2 = .error e →
        ∃ p ∈ fetchedPages (collectKws prov F kws seen).1,
          badStatus p.status = true ∧ e = provErr p) := by
  induction kws with
  | nil => intro seen; simp [collectKws]
  | cons kw kws ih =>
      intro seen
      unfold collectKws
      obtain ⟨ra1, ra2⟩ := runPages_err prov F (prov.pages kw) seen
      cases ha : (runPages prov F (prov.pages kw) seen).2 with
      | error e =>
          rw [ha] at ra1 ra2
          simp only [ha]
          constructor
          · constructor
            · intro _
              exact ra1.mp ⟨e, rfl⟩
            · intro _
              exact ⟨e, rfl⟩
          · intro f hf
            have : f = e := (Except.error.inj hf).symm
            subst this
            exact ra2 f rfl
      | ok s1 =>
          rw [ha] at ra1 ra2
          have hnoA : ¬ ∃ p ∈ fetchedPages (runPages prov F (prov.pages kw) seen).1,
              badStatus p.status = true := by
            intro hex
            obtain ⟨f, hf⟩ := ra1.mpr hex
            exact absurd hf (by simp)
          obtain ⟨rb1, rb2⟩ := ih s1.1
          simp only [ha]
          cases hb : (collectKws prov F kws s1.1).2 with
          | error e =>
              rw [hb] at rb1 rb2
              constructor
              · constructor
                · intro _
                  obtain ⟨q, hq, hqbad⟩ := rb1.mp ⟨e, rfl⟩
                  exact ⟨q, by simp [hq], hqbad⟩
                · intro _
                  exact ⟨e, by simp⟩
              · intro f hf
                have : f = e := by
                  simp only [] at hf
                  exact (Except.error.inj hf).symm
                subst this
                obtain ⟨q, hq, hqbad, hqe⟩ := rb2 f rfl
                exact ⟨q, by simp [hq], hqbad, hqe⟩
          | ok s2 =>
              rw [hb] at rb1 rb2
              have hnoB : ¬ ∃ p ∈ fetchedPages (collectKws prov F kws s1.1).1,
                  badStatus p.status = true := by
                intro hex
                obtain ⟨f, hf⟩ := rb1.mpr hex
                exact absurd hf (by simp)
              constructor
              · constructor
                · rintro ⟨f, hf⟩
                  exact absurd hf (by simp)
                · rintro ⟨q, hq, hqbad⟩
                  rw [fetchedPages_append_list, List.mem_append] at hq
                  rcases hq with hq | hq
                  · exact absurd ⟨q, hq, hqbad⟩ hnoA
                  · exact absurd ⟨q, hq, hqbad⟩ hnoB
              · intro f hf
                exact absurd hf (by simp)

lemma collect_err_iff (prov : Provider) (kws : List String) (F : Filters) (e : PErr) :
    (collect_leads prov kws F).2 = .error e ↔
      (collectKws prov F kws []).2 = .error e := by
  cases h : (collectKws prov F kws []).2 <;> simp [collect_leads_snd, h]

/-- C3: collect_leads raises an error if and only if some fetched
search page has a status outside OK and ZERO_RESULTS; the raised error
carries that page's provider status and error message, and no lead
list is returned alongside it; a keyword whose single page is
ZERO_RESULTS raises nothing and yields the empty collection. -/
theorem provider_error_c3 (prov : Provider) (kws : List String) (F : Filters) :
    ((∃ e, (collect_leads prov kws F).2 = .error e) ↔
      ∃ p ∈ fetchedPages (collect_leads prov kws F).1, badStatus p.status = true) ∧
    (∀ e, (collect_leads prov kws F).2 = .error e →
      ∃ p ∈ fetchedPages (collect_leads prov kws F).1,
        badStatus p.status = true ∧ e = provErr p) ∧
    (∀ kw p, prov.pages kw = [p] → p.status = "ZERO_RESULTS" →
      collect_leads prov [kw] F = ([.searchFetch p], .ok [])) := by
  obtain ⟨h1, h2⟩ := collectKws_err prov F kws []
  refine ⟨?_, ?_, ?_⟩
  · rw [collect_leads_fst]
    constructor
    · rintro ⟨e, he⟩
      exact h1.mp ⟨e, (collect_err_iff prov kws F e).mp he⟩
    · intro hex
      obtain ⟨e, he⟩ := h1.mpr hex
      exact ⟨e, (collect_err_iff prov kws F e).mpr he⟩
  · intro e he
    rw [collect_leads_fst]
    exact h2 e ((collect_err_iff prov kws F e).mp he)
  · intro kw p hkw hst
    have hbf : badStatus "ZERO_RESULTS" = false := by decide
    simp [collect_leads, collectKws, runPages, hkw, hst, hbf]

/-- C8: the page loop of a keyword is driven solely by the presence of
next_page_token: a page without one makes the loop process that page's
results exactly once and request no further page, so the run equals the
run on that single page and that page is the only search fetch. -/
theorem pagination_c8 (prov : Provider) (F : Filters) (p : SearchPage)
    (rest : List SearchPage) (seen : List (Option String))
    (h : p.next_page_token = none) :
    runPages prov F (p :: rest) seen = runPages prov F [p] seen ∧
    (badStatus p.status = false →
      fetchedPages (runPages prov F (p :: rest) seen).1 = [p]) := by
  constructor
  · by_cases hbad : badStatus p.status
    · simp [runPages, hbad]
    · by_cases hz : p.status = "ZERO_RESULTS"
      · have hbf : badStatus "ZERO_RESULTS" = false := by decide
        simp [runPages, hz, hbf]
      · simp [runPages, hbad, hz, h]
  · intro hbf
    by_cases hz : p.status = "ZERO_RESULTS"
    · simp [runPages, hz, hbf, (by decide : badStatus "ZERO_RESULTS" = false)]
    · simp [runPages, hbf, hz, h, fetchedPages_processResults]

/-- C1: over a whole run, no place_id is detail-fetched twice (once an
identifier enters the job-scoped seen set, later search results
carrying it are skipped, across pages and keywords), no two appended
records derive from the same place_id, and the returned leads are
exactly the appended records in order. -/
theorem dedup_invariant_c1 (prov : Provider) (kws : List String) (F : Filters) :
    (detailPids (collect_leads prov kws F).1).Nodup ∧
    (appendPids (collect_leads prov kws F).1).Nodup ∧
    ∀ lds, (collect_leads prov kws F).2 = .ok lds →
      appendLeads (collect_leads prov kws F).1 = lds := by
  obtain ⟨h1, h2, h3, h4, h5, h6⟩ := collectKws_ok prov F kws []
  refine ⟨by rw [collect_leads_fst]; exact h1,
    by rw [collect_leads_fst]; exact h3.nodup h1, ?_⟩
  intro lds h
  cases hc : (collectKws prov F kws []).2 with
  | error e =>
      rw [collect_leads_snd, hc] at h
      exact absurd h (by simp)
  | ok s =>
      rw [collect_leads_snd, hc] at h
      have hl := Except.ok.inj h
      obtain ⟨g1, g2, g3, g4, g5⟩ := h6 s.1 s.2 (by rw [hc])
      rw [collect_leads_fst, g3, hl]

/-- C2: when the rating filter is "5", every returned lead's rating is
exactly 5.0; when any non-no_filter rating filter is active, every
returned lead's rating parsed successfully as a float (fail-closed: a
missing rating defaults to 0.0 and a non-parseable one is rejected) and,
for the threshold filters, is at least the parsed threshold. -/
theorem rating_filter_c2 (prov : Provider) (kws : List String) (F : Filters)
    (lds : List Lead) (hok : (collect_leads prov kws F).2 = .ok lds) :
    ∀ ld ∈ lds,
      (F.rating = "5" → floatOfVal ld.rating = some 5) ∧
      (F.rating ≠ "no_filter" → ∃ q t, pyFloat F.rating = some t ∧
        floatOfVal ld.rating = some q ∧ (F.rating ≠ "5" → t ≤ q)) := by
  obtain ⟨h1, h2, h3, h4, h5, h6⟩ := collectKws_ok prov F kws []
  intro ld hld
  cases hc : (collectKws prov F kws []).2 with
  | error e => rw [collect_leads_snd, hc] at hok; exact absurd hok (by simp)
  | ok s =>
      rw [collect_leads_snd, hc] at hok
      have hl := Except.ok.inj hok
      obtain ⟨g1, g2, g3, g4, g5⟩ := h6 s.1 s.2 (by rw [hc])
      have hpass := g5 ld (by rw [hl]; exact hld)
      exact ratingPass_analysis F.rating ld.rating (passes_rating hpass)

/-- C9 counterexample: a run with two issued detail fetches in which
only one jitter sleep occurs, because the first candidate is rejected
by the rating filter after its detail fetch; the claim that a jitter
delay follows every detail fetch is therefore false. -/
theorem jitter_c9_counterexample :
    countDetail (collect_leads p9 ["k"] F9).1 = 2 ∧
    countJitter (collect_leads p9 ["k"] F9).1 = 1 := ⟨rfl, rfl⟩

/-- C9 amended: the randomized 0.1-0.2 s jitter sleep occurs
immediately after each append of a lead — that is, once per candidate
that survives the detail fetch and all filters — and nowhere else; in
particular an ok run has exactly one jitter sleep per returned lead. -/
theorem jitter_c9_amended (prov : Provider) (kws : List String) (F : Filters) :
    appendsFollowedByJitter (collect_leads prov kws F).1 = true ∧
    countJitter (collect_leads prov kws F).1 =
      countAppend (collect_leads prov kws F).1 ∧
    ∀ lds, (collect_leads prov kws F).2 = .ok lds →
      countAppend (collect_leads prov kws F).1 = lds.length := by
  obtain ⟨h1, h2, h3, h4, h5, h6⟩ := collectKws_ok prov F kws []
  refine ⟨by rw [collect_leads_fst]; exact h5,
    by rw [collect_leads_fst]; exact h4, ?_⟩
  intro lds hok
  cases hc : (collectKws prov F kws []).2 with
  | error e => rw [collect_leads_snd, hc] at hok; exact absurd hok (by simp)
  | ok s =>
      rw [collect_leads_snd, hc] at hok
      have hl := Except.ok.inj hok
      obtain ⟨g1, g2, g3, g4, g5⟩ := h6 s.1 s.2 (by rw [hc])
      rw [collect_leads_fst, g4, hl]

/-!
Lemmas for the email harvester and the geocode resolver.
-/

lemma addUnique_ne_nil (l : List String) (s : String) : addUnique l s ≠ [] := by
  unfold addUnique
  by_cases hm : s ∈ l
  · simp only [hm, if_true]
    rintro rfl
    exact absurd hm (List.not_mem_nil s)
  · simp [hm]

lemma unionTokens_ne_nil (new l : List String) (h : l ≠ [] ∨ new ≠ []) :
    unionTokens l new ≠ [] := by
  induction new generalizing l with
  | nil =>
      cases h with
      | inl h => simpa [unionTokens] using h
      | inr h => exact absurd rfl h
  | cons t ts ih =>
      simp only [unionTokens, List.foldl_cons]
      exact ih (addUnique l t) (Or.inl (addUnique_ne_nil l t))

lemma addUnique_nodup (l : List String) (s : String) (h : l.Nodup) :
    (addUnique l s).Nodup := by
  unfold addUnique
  by_cases hm : s ∈ l
  · simp [hm, h]
  · simp only [hm, if_false]
    rw [List.nodup_append]
    exact ⟨h, List.nodup_singleton s, by simpa [List.disjoint_singleton] using hm⟩

lemma unionTokens_nodup (new l : List String) (h : l.Nodup) :
    (unionTokens l new).Nodup := by
  induction new generalizing l with
  | nil => simpa [unionTokens] using h
  | cons t ts ih =>
      simp only [unionTokens, List.foldl_cons]
      exact ih (addUnique l t) (addUnique_nodup l t h)

lemma scrape_first_nonempty (web : Web) (url : String)
    (h : attemptTokens web url ≠ []) :
    scrape_site_emails web url =
      renderEmails (unionTokens [] (attemptTokens web url)) := by
  unfold scrape_site_emails
  have hne := unionTokens_ne_nil (attemptTokens web url) [] (Or.inr h)
  have : (unionTokens [] (attemptTokens web url)).isEmpty = false := by
    cases hu : unionTokens [] (attemptTokens web url) with
    | nil => exact absurd hu hne
    | cons a l => simp
  simp [this]

lemma scrape_first_empty (web : Web) (url : String)
    (h : attemptTokens web url = []) :
    scrape_site_emails web url =
      renderEmails (unionTokens [] (attemptTokens web (urljoinContact url))) := by
  unfold scrape_site_emails
  simp [h, unionTokens]

/-- C10: the harvester never consults the HTTP status code: any fetched
page — including one served with an error status such as 404 — whose
text or anchor hrefs contain email tokens determines the whole result,
and the contact-page fallback is not attempted. -/
theorem harvest_status_c10 (web : Web) (url : String) (code : ℕ) (page : Page)
    (hf : web.fetch url = .ok code page)
    (hne : emailFindall (pageBlob page) ≠ []) :
    scrape_site_emails web url =
      renderEmails (unionTokens [] (emailFindall (pageBlob page))) := by
  have hat : attemptTokens web url = emailFindall (pageBlob page) := by
    simp [attemptTokens, hf]
  rw [← hat]
  exact scrape_first_nonempty web url (by rw [hat]; exact hne)

/-- C5: the harvester attempts the given URL first and the /contact
path on the same origin second, and the second attempt happens exactly
when the first contributed no token: a first attempt yielding tokens
determines the whole result by itself (the /contact page is never
consulted), while an empty first attempt makes the result that of the
/contact attempt; in the spec's scenario — root page without tokens,
contact page with sales@example.com inside a mailto anchor — the
harvested result is "sales@example.com". -/
theorem email_fallback_c5 :
    (∀ (web : Web) (url : String), attemptTokens web url ≠ [] →
      scrape_site_emails web url =
        renderEmails (unionTokens [] (attemptTokens web url))) ∧
    (∀ (web : Web) (url : String), attemptTokens web url = [] →
      scrape_site_emails web url =
        renderEmails (unionTokens [] (attemptTokens web (urljoinContact url)))) ∧
    scrape_site_emails demoWeb "https://example.com" = "sales@example.com" := by
  refine ⟨fun web url h => scrape_first_nonempty web url h,
    fun web url h => scrape_first_empty web url h, ?_⟩
  decide

/-- C6 counterexample: a page carrying the same address as A@x.co and
a@x.co produces the joined string "a@x.co;a@x.co", which contains the
same lowercased email twice — deduplication happens on the raw tokens
before lowercasing, so the claim's "never contains the same lowercased
email address twice" is false. -/
theorem harvest_dedup_c6_counterexample :
    scrape_site_emails c6Web "http://c6.example" = "a@x.co;a@x.co" ∧
    ¬ (sortStrs ((unionTokens [] (attemptTokens c6Web "http://c6.example")).map
        lowerStr)).Nodup := by
  exact ⟨by decide, by decide⟩

/-- C6 amended: for every input the harvester's result is the
semicolon-join of the sorted lowercasings of a duplicate-free list of
raw tokens; deduplication applies to the raw tokens before lowercasing,
so the same lowercased address may appear twice when the pages carry it
in different letter cases. -/
theorem harvest_render_c6 (web : Web) (url : String) :
    ∃ raws : List String, raws.Nodup ∧
      scrape_site_emails web url =
        String.intercalate ";" (sortStrs (raws.map lowerStr)) ∧
      List.Sorted (fun a b : String => a.data ≤ b.data)
        (sortStrs (raws.map lowerStr)) := by
  have hsorted : ∀ l : List String,
      List.Sorted (fun a b : String => a.data ≤ b.data) (sortStrs l) := by
    intro l
    haveI ht : IsTrans String (fun a b : String => a.data ≤ b.data) :=
      ⟨fun _ _ _ hab hbc => le_trans hab hbc⟩
    haveI hto : IsTotal String (fun a b : String => a.data ≤ b.data) :=
      ⟨fun a b => le_total a.data b.data⟩
    exact List.sorted_insertionSort _ l
  unfold scrape_site_emails
  by_cases h : (unionTokens [] (attemptTokens web url)).isEmpty
  · refine ⟨unionTokens (unionTokens [] (attemptTokens web url))
      (attemptTokens web (urljoinContact url)), ?_, ?_, hsorted _⟩
    · exact unionTokens_nodup _ _ (unionTokens_nodup _ [] List.nodup_nil)
    · simp [h, renderEmails]
  · refine ⟨unionTokens [] (attemptTokens web url), ?_, ?_, hsorted _⟩
    · exact unionTokens_nodup _ [] List.nodup_nil
    · simp [h, renderEmails]

/-- C7: a location containing a comma is passed through unchanged with
no geocode request (hence resolving coordinates such as 52.52,13.405 is
idempotent); any other location issues exactly one geocode request, and
the resolution fails exactly when the provider status is not OK or the
result list is empty, with the error carrying the provider status. -/
theorem geo_resolve_c7 (env : GeoEnv) (loc : String) :
    (',' ∈ loc.data → resolveCenter env loc = (.ok loc, 0)) ∧
    resolveCenter env "52.52,13.405" = (.ok "52.52,13.405", 0) ∧
    (',' ∉ loc.data →
      (resolveCenter env loc).2 = 1 ∧
      ((∃ e, (resolveCenter env loc).1 = .error e) ↔
        ((env.geocode loc).status ≠ "OK" ∨ (env.geocode loc).results = [])) ∧
      (∀ e, (resolveCenter env loc).1 = .error e →
        e = "Geocode failed: " ++ (env.geocode loc).status)) := by
  refine ⟨?_, ?_, ?_⟩
  · intro h
    simp [resolveCenter, h]
  · have hm : ',' ∈ "52.52,13.405".data := by decide
    simp [resolveCenter, hm]
  · intro h
    refine ⟨by simp [resolveCenter, h], ?_, ?_⟩
    · simp only [resolveCenter, h, if_false]
      unfold geocode_location
      cases hr : (env.geocode loc).results with
      | nil =>
          simp only [hr]
          constructor
          · intro _
            simp [hr]
          · intro _
            exact ⟨"Geocode failed: " ++ (env.geocode loc).status, rfl⟩
      | cons l rest =>
          by_cases hs : (env.geocode loc).status = "OK"
          · simp [hr, hs]
          · simp [hr, hs]
    · intro e he
      simp only [resolveCenter, h, if_false] at he
      unfold geocode_location at he
      cases hr : (env.geocode loc).results with
      | nil =>
          simp only [hr] at he
          exact (Except.error.inj he).symm
      | cons l rest =>
          simp only [hr] at he
          by_cases hs : (env.geocode loc).status = "OK"
          · rw [if_pos hs] at he
            exact absurd he (by simp)
          · rw [if_neg hs] at he
            exact (Except.error.inj he).symm

/-!
Witnesses: each hypothesis-bearing claim theorem applied at a concrete
fixture.
-/

theorem dedup_invariant_c1_witness :
    appendLeads (collect_leads p9 ["k"] F9).1 = [leadB] :=
  (dedup_invariant_c1 p9 ["k"] F9).2.2 [leadB] rfl

theorem rating_filter_c2_witness :
    floatOfVal leadB.rating = some 5 :=
  (rating_filter_c2 p9 ["k"] F9 [leadB] rfl leadB (by simp)).1 rfl

theorem provider_error_c3_witness :
    collect_leads pz ["bakery"] noFilterSpec = ([.searchFetch pgZR], .ok []) :=
  (provider_error_c3 pz ["bakery"] noFilterSpec).2.2 "bakery" pgZR rfl rfl

theorem no_filter_superset_c4_witness :
    [leadB].Sublist [leadA, leadB] ∧ ∀ x ∈ [leadB], x ∈ [leadA, leadB] :=
  no_filter_superset_c4 p9 ["k"] F9 [leadA, leadB] [leadB] rfl rfl

theorem email_fallback_c5_witness :
    scrape_site_emails demoWeb "https://example.com" =
      renderEmails (unionTokens [] (attemptTokens demoWeb
        (urljoinContact "https://example.com"))) ∧
    scrape_site_emails c10Web "http://err.example" =
      renderEmails (unionTokens [] (attemptTokens c10Web "http://err.example")) :=
  ⟨email_fallback_c5.2.1 demoWeb "https://example.com" (by decide),
   email_fallback_c5.1 c10Web "http://err.example" (by decide)⟩

theorem geo_resolve_c7_witness :
    (resolveCenter env0 "Berlin").2 = 1 :=
  ((geo_resolve_c7 env0 "Berlin").2.2 (by decide)).1

theorem pagination_c8_witness :
    runPages p9 noFilterSpec [pgOK2, pgZR] [] =
      runPages p9 noFilterSpec [pgOK2] [] :=
  (pagination_c8 p9 noFilterSpec pgOK2 [pgZR] [] rfl).1

theorem jitter_c9_witness :
    countAppend (collect_leads p9 ["k"] F9).1 = [leadB].length :=
  (jitter_c9_amended p9 ["k"] F9).2.2 [leadB] rfl

theorem harvest_status_c10_witness :
    scrape_site_emails c10Web "http://err.example" = "support@err.example" :=
  (harvest_status_c10 c10Web "http://err.example" 404 c10Page rfl
    (by decide)).trans (by decide)
